import Mathlib

/-!
# Verification of the single-instrument limit order book (src/main.cpp)

Shallow embedding of the order-book matching core.  Modelling conventions:

* `Price = std::int32_t` is modelled as `Int`, `Quantity = std::uint32_t` as
  `Nat`, `OrderId = std::uint64_t` as `Nat`.  The embedded operations only
  compare prices and ids (no arithmetic), and the only quantity arithmetic is
  `min` and a subtraction guarded by `quantity <= remaining`, so no machine
  overflow or wrap-around is reachable and the unbounded types are faithful.
* `std::map<Price, OrderPointers, std::greater<Price>> bids_` is modelled as an
  association list `List (Price × List Order)` kept in strictly descending
  price order (its `begin()` is the head = best bid); the ask map likewise in
  strictly ascending order (head = best ask).
* `std::unordered_map<OrderId, OrderEntry> orders_` is modelled as an
  association list `List (OrderId × OrderEntry)`.  The C++ `OrderEntry` holds a
  `shared_ptr` to the order plus a list iterator; the fields the code actually
  reads from it later (`GetSide`, `GetPrice`, `GetOrderType`) are immutable
  order attributes, so the entry is modelled by those three fields, and the
  cached-iterator erase is modelled as erasing the (unique) order with that id
  from its level list.
* A thrown C++ exception (`asks_.at`/`bids_.at` on a missing price level,
  `front()` of an empty level) is modelled as the result `none`.
* `Trades MatchOrders()` exits its outer `while (true)` loop by `break` on
  three paths (empty bid ladder, empty ask ladder, best bid < best ask) and
  then falls off the end of the non-void function: no `return` statement is
  executed, so the returned value is undefined.  The trade-list component of
  the result is therefore an `Option (List Trade)` which is `none` exactly on
  those paths; the engine state, which is fully updated before that point, is
  kept.
-/

/-- Source `enum class OrderType`. -/
inductive OrderType where
  | GoodTillCancel
  | FillAndKill
deriving DecidableEq, Repr

/-- Source `enum class Side`. -/
inductive Side where
  | Buy
  | Sell
deriving DecidableEq, Repr

/-- Source `using Price = std::int32_t` (only compared, never computed with). -/
abbrev Price := Int

/-- Source `using Quantity = std::uint32_t`. -/
abbrev Quantity := Nat

/-- Source `using OrderId = std::uint64_t`. -/
abbrev OrderId := Nat

/-- Source `class Order`: the constructor sets `initialQuantity_` and
`remainingQuantity_` both to the given quantity. -/
structure Order where
  orderType : OrderType
  orderId : OrderId
  side : Side
  price : Price
  initialQuantity : Quantity
  remainingQuantity : Quantity
deriving DecidableEq, Repr

/-- Source `Order::Fill`: decrements the remaining quantity.  The source first throws
`std::logic_error` when `quantity > remaining`; the single call site in the
matching loop passes `quantity = min(bidRemaining, askRemaining)`, which never
exceeds either remaining quantity, so the guard never fires there and the
truncated subtraction coincides with the source behaviour on every reachable
call. -/
def Order.Fill (o : Order) (quantity : Quantity) : Order :=
  { o with remainingQuantity := o.remainingQuantity - quantity }

/-- Source `Order::IsFilled`: true iff the remaining quantity is zero. -/
def Order.IsFilled (o : Order) : Bool :=
  o.remainingQuantity == 0

/-- Source `class OrderModify`. -/
structure OrderModify where
  orderId : OrderId
  side : Side
  price : Price
  quantity : Quantity
deriving DecidableEq, Repr

/-- Source `OrderModify::ToOrderPointer`: builds a fresh order with the given type and
the modification's id, side, price and quantity. -/
def OrderModify.ToOrderPointer (m : OrderModify) (orderType : OrderType) : Order :=
  ⟨orderType, m.orderId, m.side, m.price, m.quantity, m.quantity⟩

/-- Source `struct TradeInfo`. -/
structure TradeInfo where
  orderId : OrderId
  price : Price
  quantity : Quantity
deriving DecidableEq, Repr

/-- Source `class Trade`: one bid-side and one ask-side execution record. -/
structure Trade where
  bidTrade : TradeInfo
  askTrade : TradeInfo
deriving DecidableEq, Repr

/-- Source `Orderbook::OrderEntry`, restricted to the order attributes the code later
reads through it (side, price, order type); the stored iterator is modelled by
erase-by-id on the level list. -/
structure OrderEntry where
  side : Side
  price : Price
  orderType : OrderType
deriving DecidableEq, Repr

/-- The `Orderbook` state: bid ladder (descending prices), ask ladder
(ascending prices), order index. -/
structure Orderbook where
  bids : List (Price × List Order)
  asks : List (Price × List Order)
  orders : List (OrderId × OrderEntry)
deriving DecidableEq, Repr

/-- Lookup in the order index (`orders_.find` / `orders_.at`). -/
def lookupId (oid : OrderId) : List (OrderId × OrderEntry) → Option OrderEntry
  | [] => none
  | (k, v) :: rest => if k = oid then some v else lookupId oid rest

/-- Source `orders_.contains(orderId)`. -/
def containsId (oid : OrderId) (l : List (OrderId × OrderEntry)) : Bool :=
  (lookupId oid l).isSome

/-- Source `orders_.erase(orderId)`: removes the entry with the given key (an
`unordered_map` holds at most one). -/
def eraseId (oid : OrderId) : List (OrderId × OrderEntry) → List (OrderId × OrderEntry)
  | [] => []
  | kv :: rest => if kv.1 = oid then rest else kv :: eraseId oid rest

/-- Map lookup of a price level (`ladder.at(price)` succeeds iff this is
`some`). -/
def findLevel (p : Price) : List (Price × List Order) → Option (List Order)
  | [] => none
  | (q, os) :: rest => if q = p then some os else findLevel p rest

/-- Source `ladder.erase(price)`: removes the level with the given price key. -/
def eraseLevel (p : Price) : List (Price × List Order) → List (Price × List Order)
  | [] => []
  | lvl :: rest => if lvl.1 = p then rest else lvl :: eraseLevel p rest

/-- Replaces the order list stored at an existing price level (the in-place
mutation of `ladder.at(price)`). -/
def updateLevel (p : Price) (os : List Order) :
    List (Price × List Order) → List (Price × List Order)
  | [] => []
  | lvl :: rest => if lvl.1 = p then (p, os) :: rest else lvl :: updateLevel p os rest

/-- Source `orders.erase(iterator)` on a level list, where the cached iterator points
at the (unique) order with the given id: removes the first order with that
id. -/
def eraseOrderInLevel (oid : OrderId) : List Order → List Order
  | [] => []
  | o :: rest => if o.orderId = oid then rest else o :: eraseOrderInLevel oid rest

/-- Source `bids_[price].push_back(order)` on the descending-price bid map: appends
the order at the back of the level with that price, creating the level (in
descending price position) if absent. -/
def insertIntoLevelDesc (p : Price) (o : Order) :
    List (Price × List Order) → List (Price × List Order)
  | [] => [(p, [o])]
  | (q, os) :: rest =>
    if p > q then (p, [o]) :: (q, os) :: rest
    else if p = q then (q, os ++ [o]) :: rest
    else (q, os) :: insertIntoLevelDesc p o rest

/-- The inner `while (!bids.empty() && !asks.empty())` loop of
`Orderbook::MatchOrders`, acting on the order lists of the current best bid
level and best ask level.  Each iteration matches the two front orders for
`quantity = min` of their remaining quantities, fills both, pops each front
order that became filled (recording its id for erasure from the order index),
and appends one `Trade` carrying the bid order's id/price and the ask order's
id/price.  Returns (trades, remaining bid level, remaining ask level, ids of
filled orders to erase from the index). -/
def MatchAtLevel : List Order → List Order →
    List Trade × List Order × List Order × List OrderId
  | [], asks => ([], [], asks, [])
  | b :: bs, [] => ([], b :: bs, [], [])
  | b :: bs, a :: as =>
    let q := min b.remainingQuantity a.remainingQuantity
    let rest := MatchAtLevel
      (if (b.Fill q).IsFilled then bs else b.Fill q :: bs)
      (if (a.Fill q).IsFilled then as else a.Fill q :: as)
    (⟨⟨b.orderId, b.price, q⟩, ⟨a.orderId, a.price, q⟩⟩ :: rest.1,
      rest.2.1, rest.2.2.1,
      (if (b.Fill q).IsFilled then [b.orderId] else []) ++
        (if (a.Fill q).IsFilled then [a.orderId] else []) ++ rest.2.2.2)
termination_by bids asks => bids.length + asks.length
decreasing_by
  simp only [Order.Fill, Order.IsFilled, beq_iff_eq]
  rcases Nat.le_total b.remainingQuantity a.remainingQuantity with h | h
  · rw [min_eq_left h]
    split <;> split <;> simp_all [List.length_cons] <;> omega
  · rw [min_eq_right h]
    split <;> split <;> simp_all [List.length_cons] <;> omega

/-- Source `Orderbook::CanMatch(side, price)`: a Buy can match iff the ask ladder is
non-empty and `price >= bestAsk`; a Sell can match iff the bid ladder is
non-empty and `price <= bestBid`. -/
def Orderbook.CanMatch (s : Orderbook) (side : Side) (price : Price) : Bool :=
  match side with
  | Side.Buy =>
    match s.asks with
    | [] => false
    | (bestAsk, _) :: _ => decide (price ≥ bestAsk)
  | Side.Sell =>
    match s.bids with
    | [] => false
    | (bestBid, _) :: _ => decide (price ≤ bestBid)

/-- Source `Orderbook::CancelOrder`.  No-op when the id is not in the index.
Otherwise the index entry is erased, then the order is removed from the level
list of the ladder selected by the order's recorded side (`asks_` for Sell,
`bids_` otherwise), and the level is erased from that ladder when it becomes
empty.  The source reaches the ladder via `asks_.at(price)` / `bids_.at(price)`,
which throws `std::out_of_range` when that ladder has no level at the order's
price (possible when the order was inserted into the wrong ladder by
`AddOrder`'s Sell branch): that exception outcome is modelled as `none`. -/
def Orderbook.CancelOrder (s : Orderbook) (oid : OrderId) : Option Orderbook :=
  match lookupId oid s.orders with
  | none => some s
  | some entry =>
    let orders2 := eraseId oid s.orders
    match entry.side with
    | Side.Sell =>
      match findLevel entry.price s.asks with
      | none => none
      | some os =>
        let os2 := eraseOrderInLevel oid os
        some { s with orders := orders2,
                      asks := if os2.isEmpty then eraseLevel entry.price s.asks
                              else updateLevel entry.price os2 s.asks }
    | Side.Buy =>
      match findLevel entry.price s.bids with
      | none => none
      | some os =>
        let os2 := eraseOrderInLevel oid os
        some { s with orders := orders2,
                      bids := if os2.isEmpty then eraseLevel entry.price s.bids
                              else updateLevel entry.price os2 s.bids }

/-- Source `Orderbook::CheckAndCancelFillAndKillOrders`: for the bid ladder and then
the ask ladder, when the ladder is non-empty, inspect the front order of its
best level and cancel it when its type is FillAndKill.  `orders.front()` on an
empty level list is undefined in the source and is modelled as `none`, as is a
throwing cancel. -/
def Orderbook.CheckAndCancelFillAndKillOrders (s : Orderbook) : Option Orderbook :=
  let step : (Orderbook → List (Price × List Order)) → Orderbook → Option Orderbook :=
    fun ladder t =>
      match ladder t with
      | [] => some t
      | (_, []) :: _ => none
      | (_, o :: _) :: _ =>
        if o.orderType = OrderType.FillAndKill then t.CancelOrder o.orderId else some t
  (step (fun t => t.bids) s).bind (step (fun t => t.asks))

/-- Source `Orderbook::MatchOrders`.  The source's outer `while (true)` loop either
`break`s (empty bid ladder, empty ask ladder, or best bid price below best ask
price) and then falls off the end of the non-void function — the returned
trade list is undefined, modelled as trade component `none` with the state
unchanged — or processes the single best-bid/best-ask level pair with the
inner loop (`MatchAtLevel`), erases drained levels and filled ids, runs the
FillAndKill sweep, and `return`s the trades unconditionally, never iterating
the outer loop a second time. -/
def Orderbook.MatchOrders (s : Orderbook) : Option (Option (List Trade) × Orderbook) :=
  match s.bids, s.asks with
  | [], _ => some (none, s)
  | _ :: _, [] => some (none, s)
  | (bidPrice, bidOrders) :: restBids, (askPrice, askOrders) :: restAsks =>
    if bidPrice < askPrice then some (none, s)
    else
      let r := MatchAtLevel bidOrders askOrders
      let bids2 := if r.2.1.isEmpty then restBids else (bidPrice, r.2.1) :: restBids
      let asks2 := if r.2.2.1.isEmpty then restAsks else (askPrice, r.2.2.1) :: restAsks
      let orders2 := r.2.2.2.foldl (fun acc oid => eraseId oid acc) s.orders
      match Orderbook.CheckAndCancelFillAndKillOrders ⟨bids2, asks2, orders2⟩ with
      | none => none
      | some s2 => some (some r.1, s2)

/-- Source `Orderbook::AddOrder`.  Returns empty trades unchanged on a duplicate id
(the source's `return ( );` is an obvious slip for `return { };`) and on a
FillAndKill order that cannot match.  Otherwise the order is appended at the
back of the level at its price — the source's Buy branch (whose
`order.push_back(order)` is an obvious slip for `orders.push_back(order)`)
uses `bids_[order->GetPrice()]`, and its Sell branch (line 293) ALSO uses
`bids_[order->GetPrice()]`, so both sides are inserted into the bid ladder —
the id is recorded in the index, and `MatchOrders` runs. -/
def Orderbook.AddOrder (s : Orderbook) (o : Order) : Option (Option (List Trade) × Orderbook) :=
  if containsId o.orderId s.orders then some (some [], s)
  else if o.orderType = OrderType.FillAndKill ∧ s.CanMatch o.side o.price = false then
    some (some [], s)
  else
    let bids2 :=
      match o.side with
      | Side.Buy => insertIntoLevelDesc o.price o s.bids
      | Side.Sell => insertIntoLevelDesc o.price o s.bids
    Orderbook.MatchOrders ⟨bids2, s.asks, s.orders ++ [(o.orderId, ⟨o.side, o.price, o.orderType⟩)]⟩

/-- Source `Orderbook::MatchOrder` (modify): no-op returning no trades when the id is
not resting; otherwise captures the existing order's type via `orders_.at`,
cancels the existing order and submits the replacement built by
`ToOrderPointer`. -/
def Orderbook.MatchOrder (s : Orderbook) (m : OrderModify) :
    Option (Option (List Trade) × Orderbook) :=
  if containsId m.orderId s.orders then
    match lookupId m.orderId s.orders with
    | none => none
    | some e =>
      (s.CancelOrder m.orderId).bind fun s2 => s2.AddOrder (m.ToOrderPointer e.orderType)
  else some (some [], s)

/-- Source `Orderbook::Size`: cardinality of the order index. -/
def Orderbook.Size (s : Orderbook) : Nat :=
  s.orders.length

/-- Modelled from the spec's words, for the refinement claim about `modify`
(§4.5): capture the existing order's kind, cancel the existing order, and
submit a fresh order with the same id and kind and the new side, price and
quantity; a no-op returning no trades when the id is not resting. -/
def modifySpec (s : Orderbook) (m : OrderModify) :
    Option (Option (List Trade) × Orderbook) :=
  match lookupId m.orderId s.orders with
  | none => some (some [], s)
  | some e =>
    (s.CancelOrder m.orderId).bind fun s2 =>
      s2.AddOrder ⟨e.orderType, m.orderId, m.side, m.price, m.quantity, m.quantity⟩

/-- The empty book. -/
def emptyBook : Orderbook :=
  ⟨[], [], []⟩


/-- Statement helper: the ladder that stores a given side (per the source's
`CancelOrder`, `asks_` for Sell and `bids_` for Buy). -/
def sideLadder (s : Orderbook) : Side → List (Price × List Order)
  | Side.Buy => s.bids
  | Side.Sell => s.asks

/-- Statement helper: the opposite side. -/
def Side.opp : Side → Side
  | Side.Buy => Side.Sell
  | Side.Sell => Side.Buy

theorem length_eraseId_of_lookup :
    ∀ {l : List (OrderId × OrderEntry)} {oid : OrderId} {e : OrderEntry},
      lookupId oid l = some e → (eraseId oid l).length + 1 = l.length := by
  intro l
  induction l with
  | nil => intro oid e h; simp [lookupId] at h
  | cons kv rest ih =>
    intro oid e h
    obtain ⟨k, v⟩ := kv
    by_cases hk : k = oid
    · simp [eraseId, hk]
    · simp only [lookupId, if_neg hk] at h
      simpa [eraseId, hk] using ih h

theorem lookupId_of_not_mem :
    ∀ {l : List (OrderId × OrderEntry)} {oid : OrderId},
      oid ∉ l.map Prod.fst → lookupId oid l = none := by
  intro l
  induction l with
  | nil => intro oid _; rfl
  | cons kv rest ih =>
    intro oid h
    obtain ⟨k, v⟩ := kv
    simp only [List.map_cons, List.mem_cons] at h
    push_neg at h
    have hk : ¬ (k = oid) := fun hkk => h.1 hkk.symm
    simp only [lookupId, if_neg hk]
    exact ih h.2

theorem lookupId_eraseId_self :
    ∀ {l : List (OrderId × OrderEntry)} {oid : OrderId},
      (l.map Prod.fst).Nodup → lookupId oid (eraseId oid l) = none := by
  intro l
  induction l with
  | nil => intro oid _; rfl
  | cons kv rest ih =>
    intro oid h
    obtain ⟨k, v⟩ := kv
    simp only [List.map_cons, List.nodup_cons] at h
    by_cases hk : k = oid
    · subst hk
      have he : eraseId k ((k, v) :: rest) = rest := by simp [eraseId]
      rw [he]
      exact lookupId_of_not_mem (by simpa using h.1)
    · simp only [eraseId, if_neg hk, lookupId, if_neg hk]
      exact ih h.2

theorem not_mem_eraseOrderInLevel_of_countP_one :
    ∀ {os : List Order} {oid : OrderId},
      os.countP (fun o => o.orderId == oid) = 1 →
      ∀ x ∈ eraseOrderInLevel oid os, x.orderId ≠ oid := by
  intro os
  induction os with
  | nil => intro oid h; simp [List.countP_nil] at h
  | cons o rest ih =>
    intro oid h
    by_cases ho : o.orderId = oid
    · rw [List.countP_cons_of_pos _ _ (by simpa using ho)] at h
      have hz : rest.countP (fun o => o.orderId == oid) = 0 := by omega
      intro x hx
      have he : eraseOrderInLevel oid (o :: rest) = rest := by
        simp [eraseOrderInLevel, ho]
      rw [he] at hx
      simpa using List.countP_eq_zero.mp hz x hx
    · rw [List.countP_cons_of_neg _ _ (by simpa using ho)] at h
      intro x hx
      have he : eraseOrderInLevel oid (o :: rest) = o :: eraseOrderInLevel oid rest := by
        simp [eraseOrderInLevel, ho]
      rw [he] at hx
      rcases List.mem_cons.mp hx with h1 | h1
      · subst h1; exact ho
      · exact ih h x h1

theorem MatchAtLevel_length_le (bids asks : List Order) :
    (MatchAtLevel bids asks).2.1.length + (MatchAtLevel bids asks).2.2.1.length ≤
      bids.length + asks.length := by
  induction bids, asks using MatchAtLevel.induct with
  | case1 asks => simp [MatchAtLevel]
  | case2 b bs => simp [MatchAtLevel]
  | case3 b bs a as q ih =>
    simp only [MatchAtLevel]
    refine le_trans ih ?_
    have hq : q = min b.remainingQuantity a.remainingQuantity := rfl
    rcases Nat.le_total b.remainingQuantity a.remainingQuantity with h | h
    · have hb : (b.Fill q).IsFilled = true := by
        simp [Order.Fill, Order.IsFilled, hq, min_eq_left h]
      rw [dif_pos hb]
      split <;> simp_all [List.length_cons] <;> omega
    · have ha : (a.Fill q).IsFilled = true := by
        simp [Order.Fill, Order.IsFilled, hq, min_eq_right h]
      rw [dif_pos ha]
      split <;> simp_all [List.length_cons] <;> omega

/-- Claim C4: for every book state and every FillAndKill order, when the order
is a Buy and the ask ladder is empty or its price is strictly below the best
ask price, or the order is a Sell and the bid ladder is empty or its price is
strictly above the best bid price, `AddOrder` returns the empty trade list and
leaves the book state unchanged, so the order never rests. -/
theorem claim4_fak_reject (s : Orderbook) (o : Order)
    (hT : o.orderType = OrderType.FillAndKill)
    (h : (o.side = Side.Buy ∧ ∀ p l rest, s.asks = (p, l) :: rest → o.price < p) ∨
         (o.side = Side.Sell ∧ ∀ p l rest, s.bids = (p, l) :: rest → p < o.price)) :
    s.AddOrder o = some (some [], s) := by
  by_cases hc : containsId o.orderId s.orders
  · simp [Orderbook.AddOrder, hc]
  · have hcm : s.CanMatch o.side o.price = false := by
      rcases h with ⟨hs, hp⟩ | ⟨hs, hp⟩
      · rw [hs]
        cases ha : s.asks with
        | nil => simp [Orderbook.CanMatch, ha]
        | cons lvl rest =>
          obtain ⟨p, l⟩ := lvl
          have hlt := hp p l rest ha
          simp only [Orderbook.CanMatch, ha, decide_eq_false_iff_not]
          exact not_le.mpr hlt
      · rw [hs]
        cases hb : s.bids with
        | nil => simp [Orderbook.CanMatch, hb]
        | cons lvl rest =>
          obtain ⟨p, l⟩ := lvl
          have hlt := hp p l rest hb
          simp only [Orderbook.CanMatch, hb, decide_eq_false_iff_not]
          exact not_le.mpr hlt
    simp [Orderbook.AddOrder, hc, hT, hcm]

/-- Concrete FillAndKill order used to witness claim C4. -/
def c4Order : Order := ⟨OrderType.FillAndKill, 3, Side.Buy, 101, 5, 5⟩

/-- Witness for claim C4: with an empty book, a FillAndKill Buy 5@101 is
rejected with no trades and the book is unchanged. -/
theorem claim4_fak_reject_witness :
    emptyBook.AddOrder c4Order = some (some [], emptyBook) :=
  claim4_fak_reject emptyBook c4Order rfl
    (Or.inl ⟨rfl, by intro p l rest h; simp [emptyBook] at h⟩)

/-- Claim C6: submitting an order whose id already has an entry in the order
index returns no trades and leaves the entire book state unchanged. -/
theorem claim6_duplicate_noop (s : Orderbook) (o : Order)
    (h : containsId o.orderId s.orders = true) :
    s.AddOrder o = some (some [], s) := by
  simp [Orderbook.AddOrder, h]

/-- Concrete book with a resting order of id 4, used to witness claim C6. -/
def c6Book : Orderbook :=
  ⟨[(50, [⟨OrderType.GoodTillCancel, 4, Side.Buy, 50, 2, 2⟩])], [],
   [(4, ⟨Side.Buy, 50, OrderType.GoodTillCancel⟩)]⟩

/-- Concrete duplicate-id submission used to witness claim C6. -/
def c6Dup : Order := ⟨OrderType.GoodTillCancel, 4, Side.Buy, 60, 9, 9⟩

/-- Witness for claim C6: resubmitting id 4 into a book where id 4 rests
returns no trades and changes nothing. -/
theorem claim6_duplicate_noop_witness :
    c6Book.AddOrder c6Dup = some (some [], c6Book) :=
  claim6_duplicate_noop c6Book c6Dup (by decide)

/-- Claim C7: `MatchOrder` (modify) equals the spec-side composition: a no-op
returning no trades when the id is not resting, and otherwise exactly
cancel of the id followed by submit of a fresh order with the same id, the
original order's kind, and the new side, price and quantity. -/
theorem claim7_modify_is_cancel_then_submit (s : Orderbook) (m : OrderModify) :
    s.MatchOrder m = modifySpec s m := by
  rw [Orderbook.MatchOrder, modifySpec, containsId]
  cases h : lookupId m.orderId s.orders with
  | none => simp
  | some e => simp [OrderModify.ToOrderPointer]

/-- Claim C9: in every inner-loop iteration with both level lists non-empty,
the matched quantity is the minimum of the two front orders' remaining
quantities (visible as the first emitted trade), at least one of the two front
orders becomes filled and its id is recorded for removal from the order index,
and the combined size of the two levels strictly decreases across the loop, so
the inner loop terminates on every finite book (the totality of `MatchAtLevel`
is this termination argument, discharged by the same measure). -/
theorem claim9_inner_loop_progress (b a : Order) (bs as : List Order) :
    (MatchAtLevel (b :: bs) (a :: as)).1.head? =
      some ⟨⟨b.orderId, b.price, min b.remainingQuantity a.remainingQuantity⟩,
            ⟨a.orderId, a.price, min b.remainingQuantity a.remainingQuantity⟩⟩ ∧
    (((b.Fill (min b.remainingQuantity a.remainingQuantity)).IsFilled = true ∧
        b.orderId ∈ (MatchAtLevel (b :: bs) (a :: as)).2.2.2) ∨
      ((a.Fill (min b.remainingQuantity a.remainingQuantity)).IsFilled = true ∧
        a.orderId ∈ (MatchAtLevel (b :: bs) (a :: as)).2.2.2)) ∧
    (MatchAtLevel (b :: bs) (a :: as)).2.1.length +
        (MatchAtLevel (b :: bs) (a :: as)).2.2.1.length <
      (b :: bs).length + (a :: as).length := by
  refine ⟨by simp [MatchAtLevel], ?_, ?_⟩
  · rcases Nat.le_total b.remainingQuantity a.remainingQuantity with h | h
    · have hb : (b.Fill (min b.remainingQuantity a.remainingQuantity)).IsFilled = true := by
        simp [Order.Fill, Order.IsFilled, min_eq_left h]
      left
      refine ⟨hb, ?_⟩
      simp only [MatchAtLevel]
      simp [hb, List.mem_append]
    · have ha : (a.Fill (min b.remainingQuantity a.remainingQuantity)).IsFilled = true := by
        simp [Order.Fill, Order.IsFilled, min_eq_right h]
      right
      refine ⟨ha, ?_⟩
      simp only [MatchAtLevel]
      simp [ha, List.mem_append]
  · simp only [MatchAtLevel]
    have hle := MatchAtLevel_length_le
      (if (b.Fill (min b.remainingQuantity a.remainingQuantity)).IsFilled then bs
        else b.Fill (min b.remainingQuantity a.remainingQuantity) :: bs)
      (if (a.Fill (min b.remainingQuantity a.remainingQuantity)).IsFilled then as
        else a.Fill (min b.remainingQuantity a.remainingQuantity) :: as)
    refine lt_of_le_of_lt hle ?_
    rcases Nat.le_total b.remainingQuantity a.remainingQuantity with h | h
    · have hb : (b.Fill (min b.remainingQuantity a.remainingQuantity)).IsFilled = true := by
        simp [Order.Fill, Order.IsFilled, min_eq_left h]
      rw [if_pos hb]
      split <;> simp [List.length_cons] <;> omega
    · have ha : (a.Fill (min b.remainingQuantity a.remainingQuantity)).IsFilled = true := by
        simp [Order.Fill, Order.IsFilled, min_eq_right h]
      rw [if_pos ha]
      split <;> simp [List.length_cons] <;> omega

/-- Resting ask 5@100 used in the claim C1 scenario. -/
def c1Ask1 : Order := ⟨OrderType.GoodTillCancel, 11, Side.Sell, 100, 5, 5⟩

/-- Resting ask 5@101 used in the claim C1 scenario. -/
def c1Ask2 : Order := ⟨OrderType.GoodTillCancel, 12, Side.Sell, 101, 5, 5⟩

/-- Two-level ask ladder (100 and 101), well formed per the data model, used
for claim C1. -/
def c1Book : Orderbook :=
  ⟨[], [(100, [c1Ask1]), (101, [c1Ask2])],
   [(11, ⟨Side.Sell, 100, OrderType.GoodTillCancel⟩),
    (12, ⟨Side.Sell, 101, OrderType.GoodTillCancel⟩)]⟩

/-- Incoming large Buy 10@101 that should walk both ask levels. -/
def c1Buy : Order := ⟨OrderType.GoodTillCancel, 21, Side.Buy, 101, 10, 10⟩

/-- Book state after the claim C1 submission: the buy still rests with 5
remaining at 101 against a live ask of 5 at 101. -/
def c1After : Orderbook :=
  ⟨[(101, [⟨OrderType.GoodTillCancel, 21, Side.Buy, 101, 10, 5⟩])],
   [(101, [c1Ask2])],
   [(12, ⟨Side.Sell, 101, OrderType.GoodTillCancel⟩),
    (21, ⟨Side.Buy, 101, OrderType.GoodTillCancel⟩)]⟩

/-- Claim C1 fails on the code: submitting Buy 10@101 against asks 5@100 and
5@101 exhausts the 100 level and leaves best bid 101 and best ask 101 — prices
still crossed with 5 more matchable — yet `MatchOrders` produces exactly the
one trade from the first level pair and returns, because the source `return
trades;` sits inside the outer loop body.  The claim requires matching to
continue to the next level until best bid is strictly below best ask. -/
theorem claim1_early_return_stops_walk :
    c1Book.AddOrder c1Buy = some (some [⟨⟨21, 101, 5⟩, ⟨11, 100, 5⟩⟩], c1After) ∧
    c1After.bids.head?.map Prod.fst = some 101 ∧
    c1After.asks.head?.map Prod.fst = some 101 := by
  refine ⟨?_, rfl, rfl⟩
  simp [Orderbook.AddOrder, c1Book, c1Buy, c1Ask1, c1Ask2, c1After, containsId,
    lookupId, Orderbook.CanMatch, insertIntoLevelDesc, Orderbook.MatchOrders,
    MatchAtLevel, Order.Fill, Order.IsFilled,
    Orderbook.CheckAndCancelFillAndKillOrders, Orderbook.CancelOrder, eraseId]

/-- Sell order submitted in the claim C2 scenario. -/
def c2Sell : Order := ⟨OrderType.GoodTillCancel, 51, Side.Sell, 100, 5, 5⟩

/-- Claim C2 fails on the code: submitting a Sell into an empty book places it
in the BID ladder (the source's Sell branch reads `bids_[order->GetPrice()]`),
leaving the ask ladder empty, while the claim requires a Sell to be appended
to the ask ladder's level at its price.  (The trade component is `none`
because `MatchOrders` then falls off the end of the function on its
empty-ask break path.) -/
theorem claim2_sell_into_bid_ladder :
    emptyBook.AddOrder c2Sell =
      some (none, ⟨[(100, [c2Sell])], [],
        [(51, ⟨Side.Sell, 100, OrderType.GoodTillCancel⟩)]⟩) := by
  simp [Orderbook.AddOrder, emptyBook, c2Sell, containsId, lookupId,
    Orderbook.CanMatch, insertIntoLevelDesc, Orderbook.MatchOrders]

/-- Resting ask 3@100 used in the claim C3 scenario. -/
def c3Ask1 : Order := ⟨OrderType.GoodTillCancel, 31, Side.Sell, 100, 3, 3⟩

/-- Resting ask 4@102 used in the claim C3 scenario. -/
def c3Ask2 : Order := ⟨OrderType.GoodTillCancel, 32, Side.Sell, 102, 4, 4⟩

/-- Two-level ask ladder (100 and 102), well formed per the data model, used
for claim C3. -/
def c3Book : Orderbook :=
  ⟨[], [(100, [c3Ask1]), (102, [c3Ask2])],
   [(31, ⟨Side.Sell, 100, OrderType.GoodTillCancel⟩),
    (32, ⟨Side.Sell, 102, OrderType.GoodTillCancel⟩)]⟩

/-- Incoming Buy 7@102 for claim C3. -/
def c3Buy : Order := ⟨OrderType.GoodTillCancel, 33, Side.Buy, 102, 7, 7⟩

/-- Book state after the claim C3 submission returns: best bid 102 and best
ask 102 both rest. -/
def c3After : Orderbook :=
  ⟨[(102, [⟨OrderType.GoodTillCancel, 33, Side.Buy, 102, 7, 4⟩])],
   [(102, [c3Ask2])],
   [(32, ⟨Side.Sell, 102, OrderType.GoodTillCancel⟩),
    (33, ⟨Side.Buy, 102, OrderType.GoodTillCancel⟩)]⟩

/-- Claim C3 fails on the code: after this submit call returns, neither ladder
is empty and the best bid price (102) is not strictly less than the best ask
price (102) — a crossed book rests, because `MatchOrders` returns after
processing only the first best-bid/best-ask level pair. -/
theorem claim3_crossed_book_rests :
    c3Book.AddOrder c3Buy = some (some [⟨⟨33, 102, 3⟩, ⟨31, 100, 3⟩⟩], c3After) ∧
    c3After.bids ≠ [] ∧ c3After.asks ≠ [] ∧
    c3After.bids.head?.map Prod.fst = some 102 ∧
    c3After.asks.head?.map Prod.fst = some 102 := by
  refine ⟨?_, by simp [c3After], by simp [c3After], rfl, rfl⟩
  simp [Orderbook.AddOrder, c3Book, c3Buy, c3Ask1, c3Ask2, c3After, containsId,
    lookupId, Orderbook.CanMatch, insertIntoLevelDesc, Orderbook.MatchOrders,
    MatchAtLevel, Order.Fill, Order.IsFilled,
    Orderbook.CheckAndCancelFillAndKillOrders, Orderbook.CancelOrder, eraseId]

/-- Book with one resting bid and no asks, used for claim C10. -/
def c10Book : Orderbook :=
  ⟨[(99, [⟨OrderType.GoodTillCancel, 41, Side.Buy, 99, 2, 2⟩])], [],
   [(41, ⟨Side.Buy, 99, OrderType.GoodTillCancel⟩)]⟩

/-- Claim C10 fails on the code: on the empty-ask break path the outer loop of
`MatchOrders` exits and control falls off the end of the non-void function —
no trade list is returned at all (modelled as the `none` trade component),
while the claim requires the trades accumulated so far (here the empty list)
to be returned. -/
theorem claim10_undefined_on_break :
    c10Book.MatchOrders = some (none, c10Book) := by
  simp [Orderbook.MatchOrders, c10Book]

/-- Sell order whose cancellation exposes the claim C5 failure. -/
def c5Sell : Order := ⟨OrderType.GoodTillCancel, 7, Side.Sell, 100, 5, 5⟩

/-- The (reachable) book state after submitting `c5Sell` to the empty book:
the sell rests in the BID ladder (claim C2's defect) while its index entry
records side Sell. -/
def c5BadBook : Orderbook :=
  ⟨[(100, [c5Sell])], [], [(7, ⟨Side.Sell, 100, OrderType.GoodTillCancel⟩)]⟩

/-- Counterexample to claim C5 as stated: after an actual submit, id 7 is
resting (it has an index entry and `Size` is 1), yet `CancelOrder 7` does not
remove it — it throws (`asks_.at(100)` on an empty ask ladder, modelled as
`none`), because the resting sell sits in the bid ladder. -/
theorem claim5_cancel_counterexample :
    emptyBook.AddOrder c5Sell = some (none, c5BadBook) ∧
    lookupId 7 c5BadBook.orders = some ⟨Side.Sell, 100, OrderType.GoodTillCancel⟩ ∧
    c5BadBook.Size = 1 ∧
    c5BadBook.CancelOrder 7 = none := by
  refine ⟨?_, by decide, by decide, by decide⟩
  simp [Orderbook.AddOrder, emptyBook, c5Sell, c5BadBook, containsId, lookupId,
    Orderbook.CanMatch, insertIntoLevelDesc, Orderbook.MatchOrders]

/-- Claim C5 amended: cancel with a non-resting id is a no-op; cancel with a
resting id whose order actually lies in the ladder of its recorded side at its
price (every state satisfying the spec's data model — excluded only for
orders misplaced by the C2 side-assignment defect, where cancel throws)
removes exactly that order from its level, erases the level if it becomes
empty, removes the index entry so `Size` decreases by exactly one and the id
is no longer resting, leaves the other ladder untouched, and a second cancel
of the same id is a no-op. -/
theorem claim5_cancel_correct (s : Orderbook) (oid : OrderId) :
    (lookupId oid s.orders = none → s.CancelOrder oid = some s) ∧
    (∀ e os, lookupId oid s.orders = some e →
      (s.orders.map Prod.fst).Nodup →
      findLevel e.price (sideLadder s e.side) = some os →
      os.countP (fun o => o.orderId == oid) = 1 →
      ∃ s2, s.CancelOrder oid = some s2 ∧
        s2.Size + 1 = s.Size ∧
        lookupId oid s2.orders = none ∧
        sideLadder s2 e.side =
          (if (eraseOrderInLevel oid os).isEmpty
           then eraseLevel e.price (sideLadder s e.side)
           else updateLevel e.price (eraseOrderInLevel oid os) (sideLadder s e.side)) ∧
        sideLadder s2 e.side.opp = sideLadder s e.side.opp ∧
        (∀ x ∈ eraseOrderInLevel oid os, x.orderId ≠ oid) ∧
        s2.CancelOrder oid = some s2) := by
  constructor
  · intro h
    simp [Orderbook.CancelOrder, h]
  · intro e os hl hnd hf hc
    cases hside : e.side with
    | Buy =>
      rw [hside] at hf
      simp only [sideLadder] at hf
      refine ⟨⟨if (eraseOrderInLevel oid os).isEmpty
                then eraseLevel e.price s.bids
                else updateLevel e.price (eraseOrderInLevel oid os) s.bids,
               s.asks, eraseId oid s.orders⟩,
              ?_, ?_, ?_, ?_, ?_, ?_, ?_⟩
      · simp [Orderbook.CancelOrder, hl, hside, hf]
      · simpa [Orderbook.Size] using length_eraseId_of_lookup hl
      · exact lookupId_eraseId_self hnd
      · simp [hside, sideLadder]
      · simp [hside, sideLadder, Side.opp]
      · exact not_mem_eraseOrderInLevel_of_countP_one hc
      · simp [Orderbook.CancelOrder, lookupId_eraseId_self hnd]
    | Sell =>
      rw [hside] at hf
      simp only [sideLadder] at hf
      refine ⟨⟨s.bids,
               if (eraseOrderInLevel oid os).isEmpty
                then eraseLevel e.price s.asks
                else updateLevel e.price (eraseOrderInLevel oid os) s.asks,
               eraseId oid s.orders⟩,
              ?_, ?_, ?_, ?_, ?_, ?_, ?_⟩
      · simp [Orderbook.CancelOrder, hl, hside, hf]
      · simpa [Orderbook.Size] using length_eraseId_of_lookup hl
      · exact lookupId_eraseId_self hnd
      · simp [hside, sideLadder]
      · simp [hside, sideLadder, Side.opp]
      · exact not_mem_eraseOrderInLevel_of_countP_one hc
      · simp [Orderbook.CancelOrder, lookupId_eraseId_self hnd]

/-- Resting buy used to witness the amended claim C5. -/
def c5GoodOrder : Order := ⟨OrderType.GoodTillCancel, 5, Side.Buy, 100, 7, 7⟩

/-- Well-formed book with the single resting buy `c5GoodOrder`. -/
def c5GoodBook : Orderbook :=
  ⟨[(100, [c5GoodOrder])], [], [(5, ⟨Side.Buy, 100, OrderType.GoodTillCancel⟩)]⟩

/-- Witness for the amended claim C5 at a concrete resting order. -/
theorem claim5_cancel_correct_witness :
    ∃ s2, c5GoodBook.CancelOrder 5 = some s2 ∧
      s2.Size + 1 = c5GoodBook.Size ∧
      lookupId 5 s2.orders = none ∧
      sideLadder s2 Side.Buy =
        (if (eraseOrderInLevel 5 [c5GoodOrder]).isEmpty
         then eraseLevel 100 (sideLadder c5GoodBook Side.Buy)
         else updateLevel 100 (eraseOrderInLevel 5 [c5GoodOrder])
                (sideLadder c5GoodBook Side.Buy)) ∧
      sideLadder s2 Side.Buy.opp = sideLadder c5GoodBook Side.Buy.opp ∧
      (∀ x ∈ eraseOrderInLevel 5 [c5GoodOrder], x.orderId ≠ 5) ∧
      s2.CancelOrder 5 = some s2 :=
  (claim5_cancel_correct c5GoodBook 5).2 ⟨Side.Buy, 100, OrderType.GoodTillCancel⟩
    [c5GoodOrder] (by decide) (by decide) (by decide) (by decide)
